import Mathlib

/-!
Shallow embedding of `src/numerical_methods/Rootfinding.py`.

Scalars and vector components are modelled as rationals `ℚ`; Python float
division by zero raises `ZeroDivisionError`, which the embedding models with
an explicit guard returning `PyErr.zeroDivisionError` (rationals have no
inf/NaN, and the source never produces one: Python raises instead).
The `raise ValueError("Did not converge ...")` paths are `PyErr.valueError`.
`steffensen` can also `return None`; its result type is therefore
`Option ℚ` inside `Except`.

Each solver is instrumented: a `Run α` packages the returned value or
exception together with the number of evaluations of the caller-supplied
function(s) (`calls`) and the number of loop-body entries (`iters`).
The module-level `resultados` table of the source is modelled by an explicit
`List Row` argument threaded into `Newton_Raphson` and `Secante`, which clear
it on entry exactly as the source calls `resultados.clear_rows()`.
-/

namespace Rootfinding

/-- Exceptions the Python source can raise. -/
inductive PyErr where
  | valueError
  | zeroDivisionError
deriving DecidableEq, Repr

/-- One row of the `resultados` table: iteration index, approximation `p`,
and the function value at `p`. -/
structure Row where
  idx : Nat
  p : ℚ
  fval : ℚ
deriving DecidableEq, Repr

deriving instance DecidableEq for Except

/-- Instrumented outcome of one solver call: the result or exception,
the number of calls to the caller-supplied function(s), and the number of
loop-body entries. -/
structure Run (α : Type) where
  res : Except PyErr α
  calls : Nat
  iters : Nat
deriving DecidableEq, Repr

/-- `resultados.clear_rows()`: empties the table. -/
def clear_rows (_ : List Row) : List Row := []

/-- numpy's default relative tolerance `rtol = 1e-5`, which
`np.allclose(x_new, x, atol=tol)` keeps since the call overrides only
`atol`. -/
def rtolDefault : ℚ := 1 / 100000

/-- `np.allclose(a, b, atol=tol)` elementwise test:
`|a_i - b_i| <= tol + rtol * |b_i|` with `rtol = rtolDefault`. -/
def allclose (a b : List ℚ) (tol : ℚ) : Bool :=
  (a.zip b).all fun q => decide (|q.1 - q.2| ≤ tol + rtolDefault * |q.2|)

/-- Loop of `fixed_point_iteration` (`for i in range(max_iter)`), with the
remaining iteration budget as fuel. -/
def fixed_point_loop (f : List ℚ → List ℚ) (tol : ℚ) :
    Nat → List ℚ → Run (List ℚ)
  | 0, _ => ⟨Except.error PyErr.valueError, 0, 0⟩
  | n + 1, x =>
    let x_new := f x
    if allclose x_new x tol then ⟨Except.ok x_new, 1, 1⟩
    else
      let r := fixed_point_loop f tol n x_new
      ⟨r.res, r.calls + 1, r.iters + 1⟩

/-- `fixed_point_iteration(f, x0, tol, max_iter)` from the source:
`x = np.array(x0)`; loop `x_new = np.array(f(x))`; return `x_new` when
`np.allclose(x_new, x, atol=tol)`; else `x = x_new`; raise `ValueError`
when the budget is exhausted. -/
def fixed_point_iteration (f : List ℚ → List ℚ) (x0 : List ℚ) (tol : ℚ)
    (max_iter : Nat) : Run (List ℚ) :=
  fixed_point_loop f tol max_iter x0

/-- Loop of `Newton_Raphson` (`for i in range(N_0)`). Per iteration the
source evaluates `f(p_0)`, `fp(p_0)` (2 calls; division raises when
`fp(p_0) == 0`), then `f(p)` for `resultados.add_row` (1 call). On the
convergence branch the diagnostic print computes
`abs(p - p_0) / abs(p)`, which raises `ZeroDivisionError` when `p == 0`. -/
def Newton_loop (f fp : ℚ → ℚ) (TOL : ℚ) :
    Nat → Nat → ℚ → List Row → Run (ℚ × List Row)
  | 0, _, _, _ => ⟨Except.error PyErr.valueError, 0, 0⟩
  | n + 1, i, p0, rows =>
    if fp p0 = 0 then ⟨Except.error PyErr.zeroDivisionError, 2, 1⟩
    else
      let p := p0 - f p0 / fp p0
      let rows1 := rows ++ [⟨i, p, f p⟩]
      if |p - p0| < TOL then
        if p = 0 then ⟨Except.error PyErr.zeroDivisionError, 3, 1⟩
        else ⟨Except.ok (p, rows1), 3, 1⟩
      else
        let r := Newton_loop f fp TOL n (i + 1) p rows1
        ⟨r.res, r.calls + 3, r.iters + 1⟩

/-- `Newton_Raphson(f, fp, p_0, TOL, N_0)` from the source; the extra
`resultados` argument is the module-level table, cleared on entry. -/
def Newton_Raphson (f fp : ℚ → ℚ) (p_0 TOL : ℚ) (N_0 : Nat)
    (resultados : List Row) : Run (ℚ × List Row) :=
  Newton_loop f fp TOL N_0 0 p_0 (clear_rows resultados)

/-- Loop of `Secante` (`for i in range(N_0)`). Per iteration: the update
divides by `q_1 - q_0` (Python raises when it is zero, with no new calls to
`f`); `f(p)` is evaluated for `add_row` (1 call); the convergence print
divides by `abs(p)`; the shift evaluates `f(p)` again (1 more call). -/
def Secante_loop (f : ℚ → ℚ) (TOL : ℚ) :
    Nat → Nat → ℚ → ℚ → ℚ → ℚ → List Row → Run (ℚ × List Row)
  | 0, _, _, _, _, _, _ => ⟨Except.error PyErr.valueError, 0, 0⟩
  | n + 1, i, p0, q0, p1, q1, rows =>
    if q1 - q0 = 0 then ⟨Except.error PyErr.zeroDivisionError, 0, 1⟩
    else
      let p := p1 - q1 * (p1 - p0) / (q1 - q0)
      let rows1 := rows ++ [⟨i, p, f p⟩]
      if |p - p1| < TOL then
        if p = 0 then ⟨Except.error PyErr.zeroDivisionError, 1, 1⟩
        else ⟨Except.ok (p, rows1), 1, 1⟩
      else
        let r := Secante_loop f TOL n (i + 1) p1 q1 p (f p) rows1
        ⟨r.res, r.calls + 2, r.iters + 1⟩

/-- `Secante(f, p_0, p_1, TOL, N_0)` from the source: before the loop it
clears the table, evaluates `q_0 = f(p_0)` and `q_1 = f(p_1)` (2 calls) and
seeds the table with rows `(0, p_0, q_0)` and `(1, p_1, q_1)`. -/
def Secante (f : ℚ → ℚ) (p_0 p_1 TOL : ℚ) (N_0 : Nat)
    (resultados : List Row) : Run (ℚ × List Row) :=
  let q_0 := f p_0
  let q_1 := f p_1
  let r := Secante_loop f TOL N_0 0 p_0 q_0 p_1 q_1
    (clear_rows resultados ++ [⟨0, p_0, q_0⟩, ⟨1, p_1, q_1⟩])
  ⟨r.res, r.calls + 2, r.iters⟩

/-- Loop of `steffensen` (`for i in range(max_iter)`). Per iteration:
`x_next = f(x)`, `x_next_next = f(x_next)` (2 calls); when the Aitken
denominator satisfies `abs(denominator) < tol` the source prints a warning
and `return None` (modelled `Except.ok none`); otherwise the division by
`denominator` raises when it is exactly zero (reachable only for
`tol ≤ 0`); convergence returns `some x_new`. -/
def steffensen_loop (f : ℚ → ℚ) (tol : ℚ) : Nat → ℚ → Run (Option ℚ)
  | 0, _ => ⟨Except.error PyErr.valueError, 0, 0⟩
  | n + 1, x =>
    let x_next := f x
    let x_next_next := f x_next
    let denominator := x_next_next - 2 * x_next + x
    if |denominator| < tol then ⟨Except.ok none, 2, 1⟩
    else if denominator = 0 then ⟨Except.error PyErr.zeroDivisionError, 2, 1⟩
    else
      let x_new := x - (x_next - x) ^ 2 / denominator
      if |x_new - x| < tol then ⟨Except.ok (some x_new), 2, 1⟩
      else
        let r := steffensen_loop f tol n x_new
        ⟨r.res, r.calls + 2, r.iters + 1⟩

/-- `steffensen(f, x0, tol, max_iter)` from the source. -/
def steffensen (f : ℚ → ℚ) (x0 tol : ℚ) (max_iter : Nat) : Run (Option ℚ) :=
  steffensen_loop f tol max_iter x0

/-- Modelled from the spec's words for claim C1 only: the purely absolute
closeness test (`|x_new_i − x_i| ≤ tol`, no relative component) the spec
describes. Compared with `allclose`, which is what the source uses. -/
def allclose_abs (a b : List ℚ) (tol : ℚ) : Bool :=
  (a.zip b).all fun q => decide (|q.1 - q.2| ≤ tol)

/-- Modelled from the spec's words for claim C1 only: `fixed_point_loop`
with the purely absolute closeness test. -/
def fixed_point_loop_spec (f : List ℚ → List ℚ) (tol : ℚ) :
    Nat → List ℚ → Except PyErr (List ℚ)
  | 0, _ => Except.error PyErr.valueError
  | n + 1, x =>
    let x_new := f x
    if allclose_abs x_new x tol then Except.ok x_new
    else fixed_point_loop_spec f tol n x_new

/-- Modelled from the spec's words for claim C1 only: fixed-point iteration
with the purely absolute closeness test the claim describes. -/
def fixed_point_iteration_spec (f : List ℚ → List ℚ) (x0 : List ℚ) (tol : ℚ)
    (max_iter : Nat) : Except PyErr (List ℚ) :=
  fixed_point_loop_spec f tol max_iter x0

/-- Heap of numpy arrays, addressed by index; used to make the allocation
behaviour of `fixed_point_iteration` explicit (line `x = np.array(x0)`). -/
abbrev Store := List (List ℚ)

/-- Read the components of the array at address `a`. -/
def readArr (s : Store) (a : Nat) : List ℚ := s.getD a []

/-- `np.array(v)`: allocate a fresh array holding the components `v`;
returns the extended store and the fresh address. -/
def npArrayCopy (s : Store) (v : List ℚ) : Store × Nat :=
  (s ++ [v], s.length)

/-- Store-level loop of `fixed_point_iteration`: each step reads the
current array, computes `f` of its value, allocates
`x_new = np.array(f(x))` at a fresh address, and either returns that
address or recurses on it; no existing cell is ever written. -/
def fixed_point_loop_store (f : List ℚ → List ℚ) (tol : ℚ) :
    Nat → Store → Nat → Store × Except PyErr Nat
  | 0, s, _ => (s, Except.error PyErr.valueError)
  | n + 1, s, xa =>
    let alloc := npArrayCopy s (f (readArr s xa))
    if allclose (readArr alloc.1 alloc.2) (readArr alloc.1 xa) tol then
      (alloc.1, Except.ok alloc.2)
    else fixed_point_loop_store f tol n alloc.1 alloc.2

/-- Store-level `fixed_point_iteration`: the source line `x = np.array(x0)`
allocates a fresh copy of the caller's array before the loop starts, so the
loop never works on the caller's array itself. -/
def fixed_point_iteration_store (f : List ℚ → List ℚ) (s : Store)
    (x0a : Nat) (tol : ℚ) (max_iter : Nat) : Store × Except PyErr Nat :=
  let alloc := npArrayCopy s (readArr s x0a)
  fixed_point_loop_store f tol max_iter alloc.1 alloc.2

/-! ### Helper lemmas -/

/-- `np.allclose` between a vector and itself holds whenever `tol ≥ 0`. -/
lemma allclose_self {x : List ℚ} {tol : ℚ} (h : 0 ≤ tol) :
    allclose x x tol = true := by
  induction x with
  | nil => rfl
  | cons a xs ih =>
    unfold allclose at ih ⊢
    simp only [List.zip_cons_cons, List.all_cons, Bool.and_eq_true,
      decide_eq_true_eq]
    refine ⟨?_, ih⟩
    have h1 : (0 : ℚ) ≤ rtolDefault * |a| := by
      have h2 : (0 : ℚ) ≤ rtolDefault := by norm_num [rtolDefault]
      exact mul_nonneg h2 (abs_nonneg a)
    simp only [sub_self, abs_zero]
    linarith

/-- The fixed-point loop runs at most as many iterations as it has fuel. -/
lemma fixed_point_loop_iters (f : List ℚ → List ℚ) (tol : ℚ) :
    ∀ (n : Nat) (x : List ℚ), (fixed_point_loop f tol n x).iters ≤ n := by
  intro n
  induction n with
  | zero => intro x; simp [fixed_point_loop]
  | succ n ih =>
    intro x
    simp only [fixed_point_loop]
    split
    · simp
    · simpa using Nat.succ_le_succ (ih (f x))

/-- The Newton loop runs at most as many iterations as it has fuel. -/
lemma Newton_loop_iters (f fp : ℚ → ℚ) (TOL : ℚ) :
    ∀ (n i : Nat) (p0 : ℚ) (rows : List Row),
      (Newton_loop f fp TOL n i p0 rows).iters ≤ n := by
  intro n
  induction n with
  | zero => intro i p0 rows; simp [Newton_loop]
  | succ n ih =>
    intro i p0 rows
    simp only [Newton_loop]
    split
    · simp
    · split
      · split
        · simp
        · simp
      · simpa using Nat.succ_le_succ (ih (i + 1) _ _)

/-- The secant loop runs at most as many iterations as it has fuel. -/
lemma Secante_loop_iters (f : ℚ → ℚ) (TOL : ℚ) :
    ∀ (n i : Nat) (p0 q0 p1 q1 : ℚ) (rows : List Row),
      (Secante_loop f TOL n i p0 q0 p1 q1 rows).iters ≤ n := by
  intro n
  induction n with
  | zero => intro i p0 q0 p1 q1 rows; simp [Secante_loop]
  | succ n ih =>
    intro i p0 q0 p1 q1 rows
    simp only [Secante_loop]
    split
    · simp
    · split
      · split
        · simp
        · simp
      · simpa using Nat.succ_le_succ (ih (i + 1) _ _ _ _ _)

/-- The Steffensen loop runs at most as many iterations as it has fuel. -/
lemma steffensen_loop_iters (f : ℚ → ℚ) (tol : ℚ) :
    ∀ (n : Nat) (x : ℚ), (steffensen_loop f tol n x).iters ≤ n := by
  intro n
  induction n with
  | zero => intro x; simp [steffensen_loop]
  | succ n ih =>
    intro x
    simp only [steffensen_loop]
    split
    · simp
    · split
      · simp
      · split
        · simp
        · simpa using Nat.succ_le_succ (ih _)

/-- The store-level fixed-point loop only ever appends fresh arrays. -/
lemma fixed_point_loop_store_extends (f : List ℚ → List ℚ) (tol : ℚ) :
    ∀ (n : Nat) (s : Store) (xa : Nat),
      ∃ t, (fixed_point_loop_store f tol n s xa).1 = s ++ t := by
  intro n
  induction n with
  | zero =>
    intro s xa
    exact ⟨[], by simp [fixed_point_loop_store]⟩
  | succ n ih =>
    intro s xa
    simp only [fixed_point_loop_store, npArrayCopy]
    split
    · exact ⟨[f (readArr s xa)], rfl⟩
    · obtain ⟨t, ht⟩ := ih (s ++ [f (readArr s xa)]) s.length
      exact ⟨[f (readArr s xa)] ++ t, by rw [ht, List.append_assoc]⟩

/-- An `ok` result of the fixed-point loop is the image under `f` of an
iterate that passed the `allclose` test. -/
lemma fixed_point_loop_ok_image (f : List ℚ → List ℚ) (tol : ℚ) :
    ∀ (m : Nat) (x r : List ℚ),
      (fixed_point_loop f tol m x).res = Except.ok r →
      ∃ y, r = f y ∧ allclose (f y) y tol = true := by
  intro m
  induction m with
  | zero =>
    intro x r h
    simp [fixed_point_loop] at h
  | succ m ih =>
    intro x r h
    simp only [fixed_point_loop] at h
    split at h
    · next hc => exact ⟨x, (Except.ok.inj h).symm, hc⟩
    · exact ih _ _ h

/-- Characterization of the `ok` results of the fixed-point loop: the value
returned is the first iterate passing the `allclose` test. -/
lemma fixed_point_loop_ok_iff (f : List ℚ → List ℚ) (tol : ℚ) :
    ∀ (m : Nat) (x r : List ℚ),
      (fixed_point_loop f tol m x).res = Except.ok r ↔
      ∃ k, k < m ∧ r = f^[k + 1] x ∧
        allclose (f^[k + 1] x) (f^[k] x) tol = true ∧
        ∀ j, j < k → allclose (f^[j + 1] x) (f^[j] x) tol = false := by
  intro m
  induction m with
  | zero =>
    intro x r
    simp [fixed_point_loop]
  | succ m ih =>
    intro x r
    simp only [fixed_point_loop]
    by_cases h : allclose (f x) x tol = true
    · rw [if_pos h]
      constructor
      · intro heq
        have hr : r = f x := (Except.ok.inj heq).symm
        refine ⟨0, Nat.succ_pos m, ?_, ?_, ?_⟩
        · simpa using hr
        · simpa using h
        · intro j hj
          exact absurd hj (Nat.not_lt_zero j)
      · rintro ⟨k, hk, hr, ht, hprev⟩
        have hk0 : k = 0 := by
          by_contra hne
          have h2 := hprev 0 (Nat.pos_of_ne_zero hne)
          simp only [zero_add, Function.iterate_one, Function.iterate_zero,
            id_eq] at h2
          rw [h2] at h
          exact Bool.noConfusion h
        subst hk0
        simp only [zero_add, Function.iterate_one] at hr
        simp [hr]
    · rw [if_neg h]
      have hfalse : allclose (f x) x tol = false := by
        simpa using h
      constructor
      · intro heq
        have heq2 : (fixed_point_loop f tol m (f x)).res = Except.ok r := heq
        obtain ⟨k, hk, hr, ht, hprev⟩ := (ih (f x) r).mp heq2
        refine ⟨k + 1, Nat.succ_lt_succ hk, ?_, ?_, ?_⟩
        · rw [Function.iterate_succ_apply]
          exact hr
        · rw [Function.iterate_succ_apply, Function.iterate_succ_apply]
          exact ht
        · intro j hj
          cases j with
          | zero => simpa using hfalse
          | succ j2 =>
            rw [Function.iterate_succ_apply, Function.iterate_succ_apply]
            exact hprev j2 (by omega)
      · rintro ⟨k, hk, hr, ht, hprev⟩
        cases k with
        | zero =>
          exfalso
          simp only [zero_add, Function.iterate_one, Function.iterate_zero,
            id_eq] at ht
          rw [ht] at hfalse
          exact Bool.noConfusion hfalse
        | succ k2 =>
          show (fixed_point_loop f tol m (f x)).res = Except.ok r
          refine (ih (f x) r).mpr ⟨k2, by omega, ?_, ?_, ?_⟩
          · rw [← Function.iterate_succ_apply]
            exact hr
          · rw [← Function.iterate_succ_apply, ← Function.iterate_succ_apply]
            exact ht
          · intro j hj
            rw [← Function.iterate_succ_apply, ← Function.iterate_succ_apply]
            exact hprev (j + 1) (by omega)

/-! ### Claims -/

/-- C3, counterexample: on a concrete input whose first Aitken denominator
`d = 4` satisfies `|d| < tol = 5`, `steffensen` returns the null result
`none` (Python `return None`), not a typed failure; the claim says the call
fails with a `StagnationError`. -/
theorem C3_counterexample :
    (steffensen (fun x => -x) 1 5 1).res = Except.ok none ∧
    ∀ e : PyErr, (steffensen (fun x => -x) 1 5 1).res ≠ Except.error e := by
  have h : (steffensen (fun x => -x) 1 5 1).res = Except.ok none := by
    simp only [steffensen, steffensen_loop]
    norm_num
  exact ⟨h, fun e => by rw [h]; simp⟩

/-- C3, amended: whenever the Aitken denominator satisfies `|d| < tol` at
the current iterate, `steffensen` immediately returns `None` (modelled
`Except.ok none`) after one more loop iteration and two more calls to `f`;
conversely, a `none` result only ever arises from that branch, so the run
raises no exception there. -/
theorem C3_stagnation :
    (∀ (f : ℚ → ℚ) (tol x : ℚ) (n : Nat),
      |f (f x) - 2 * f x + x| < tol →
      steffensen_loop f tol (n + 1) x = ⟨Except.ok none, 2, 1⟩) ∧
    (∀ (f : ℚ → ℚ) (tol x0 : ℚ) (m : Nat),
      (steffensen f x0 tol m).res = Except.ok none →
      ∃ y, |f (f y) - 2 * f y + y| < tol) := by
  constructor
  · intro f tol x n h
    simp [steffensen_loop, h]
  · intro f tol x0 m
    unfold steffensen
    induction m generalizing x0 with
    | zero => simp [steffensen_loop]
    | succ n ih =>
      intro h
      simp only [steffensen_loop] at h
      split at h
      · next hs => exact ⟨x0, hs⟩
      · split at h
        · simp at h
        · split at h
          · simp at h
          · exact ih _ h

/-- C3, witness for the amended theorem at a concrete input. -/
theorem C3_stagnation_witness :
    |(fun x : ℚ => -x) ((fun x : ℚ => -x) 1) - 2 * (fun x : ℚ => -x) 1 + 1| < 5 ∧
    steffensen_loop (fun x : ℚ => -x) 5 1 1 = ⟨Except.ok none, 2, 1⟩ :=
  ⟨by norm_num, C3_stagnation.1 (fun x => -x) 5 1 0 (by norm_num)⟩

/-- C4, confirmed: when the derivative evaluates to exactly zero at the
current iterate, the division `f(p_0) / fp(p_0)` raises Python's
`ZeroDivisionError` (the typed failure the spec names
`SingularDerivativeError`) after the two function evaluations of that step,
and no numeric value is produced; in particular an identically zero
`fprime` fails this way on the very first iteration. -/
theorem C4_singular_derivative :
    (∀ (f fp : ℚ → ℚ) (TOL p0 : ℚ) (n i : Nat) (rows : List Row),
      fp p0 = 0 →
      Newton_loop f fp TOL (n + 1) i p0 rows =
        ⟨Except.error PyErr.zeroDivisionError, 2, 1⟩) ∧
    (∀ (f : ℚ → ℚ) (TOL p0 : ℚ) (N_0 : Nat) (t : List Row), 1 ≤ N_0 →
      Newton_Raphson f (fun _ => 0) p0 TOL N_0 t =
        ⟨Except.error PyErr.zeroDivisionError, 2, 1⟩) := by
  have h1 : ∀ (f fp : ℚ → ℚ) (TOL p0 : ℚ) (n i : Nat) (rows : List Row),
      fp p0 = 0 →
      Newton_loop f fp TOL (n + 1) i p0 rows =
        ⟨Except.error PyErr.zeroDivisionError, 2, 1⟩ := by
    intro f fp TOL p0 n i rows h
    simp [Newton_loop, h]
  refine ⟨h1, ?_⟩
  intro f TOL p0 N_0 t hN
  obtain ⟨k, rfl⟩ : ∃ k, N_0 = k + 1 := ⟨N_0 - 1, by omega⟩
  exact h1 f (fun _ => 0) TOL p0 k 0 (clear_rows t) rfl

/-- C4, witness: `fprime` identically zero at a concrete input fails with
the division-by-zero failure on the first iteration. -/
theorem C4_singular_derivative_witness :
    1 ≤ 5 ∧
    Newton_Raphson (fun x : ℚ => x) (fun _ => 0) 3 1 5 [] =
      ⟨Except.error PyErr.zeroDivisionError, 2, 1⟩ :=
  ⟨by norm_num, C4_singular_derivative.2 (fun x => x) 1 3 5 [] (by norm_num)⟩

/-- C5, counterexample: with `max_iterations = 0` the `Secante` call does
fail with the budget-exhaustion `ValueError`, but only after evaluating the
caller-supplied `f` twice (`q_0 = f(p_0)` and `q_1 = f(p_1)` are computed
before the loop); the claim says the caller-supplied function is never
invoked. -/
theorem C5_counterexample :
    Secante (fun x => x) 1 2 1 0 [] = ⟨Except.error PyErr.valueError, 2, 0⟩ ∧
    (Secante (fun x => x) 1 2 1 0 []).calls ≠ 0 := by
  have h : Secante (fun x => x) 1 2 1 0 [] =
      ⟨Except.error PyErr.valueError, 2, 0⟩ := rfl
  exact ⟨h, by rw [h]; simp⟩

/-- C5, amended: with `max_iterations = 0` every method fails with the
budget-exhaustion `ValueError` (the failure the spec names
`ConvergenceError`) and the loop body never runs (`iters = 0`);
`fixed_point_iteration`, `Newton_Raphson` and `steffensen` invoke no
caller-supplied function, but `Secante` invokes `f` twice before its loop
to seed the trace. -/
theorem C5_zero_budget (f : List ℚ → List ℚ) (g gp h : ℚ → ℚ)
    (x0 : List ℚ) (p0 p1 y0 tol : ℚ) (t t1 : List Row) :
    fixed_point_iteration f x0 tol 0 = ⟨Except.error PyErr.valueError, 0, 0⟩ ∧
    Newton_Raphson g gp y0 tol 0 t = ⟨Except.error PyErr.valueError, 0, 0⟩ ∧
    Secante g p0 p1 tol 0 t1 = ⟨Except.error PyErr.valueError, 2, 0⟩ ∧
    steffensen h y0 tol 0 = ⟨Except.error PyErr.valueError, 0, 0⟩ :=
  ⟨rfl, rfl, rfl, rfl⟩

/-- C6, counterexample: a concrete `Secante` call where the first secant
update lands exactly on `p = 0` with `|p - p_1| < tol`; the claim says the
call returns `p`, but the relative-error diagnostic
`abs(p - p_1) / abs(p)` divides by zero, so the call raises
`ZeroDivisionError` instead of returning. -/
theorem C6_counterexample :
    (Secante (fun x => x) 1 (1 / 2) 1 1 []).res =
      Except.error PyErr.zeroDivisionError := by
  simp only [Secante, Secante_loop, clear_rows]
  norm_num [abs_of_nonneg, abs_of_nonpos]

/-- C6, amended: each `Secante` iteration with a nonzero denominator
`q_1 - q_0` computes `p = p_1 - q_1 (p_1 - p_0) / (q_1 - q_0)`, appends
`(i, p, f p)` to the trace, returns `p` with the trace when
`|p - p_1| < tol` provided `p ≠ 0` (at `p = 0` the relative-error
diagnostic raises `ZeroDivisionError`), and otherwise shifts
`(p_0, q_0) := (p_1, q_1)`, `(p_1, q_1) := (p, f p)` and continues. -/
theorem C6_secant_iteration (f : ℚ → ℚ) (TOL p0 q0 p1 q1 p : ℚ)
    (n i : Nat) (rows : List Row)
    (hq : q1 - q0 ≠ 0) (hp : p = p1 - q1 * (p1 - p0) / (q1 - q0)) :
    (|p - p1| < TOL → p ≠ 0 →
      Secante_loop f TOL (n + 1) i p0 q0 p1 q1 rows =
        ⟨Except.ok (p, rows ++ [⟨i, p, f p⟩]), 1, 1⟩) ∧
    (|p - p1| < TOL → p = 0 →
      Secante_loop f TOL (n + 1) i p0 q0 p1 q1 rows =
        ⟨Except.error PyErr.zeroDivisionError, 1, 1⟩) ∧
    (¬ |p - p1| < TOL →
      Secante_loop f TOL (n + 1) i p0 q0 p1 q1 rows =
        ⟨(Secante_loop f TOL n (i + 1) p1 q1 p (f p)
            (rows ++ [⟨i, p, f p⟩])).res,
         (Secante_loop f TOL n (i + 1) p1 q1 p (f p)
            (rows ++ [⟨i, p, f p⟩])).calls + 2,
         (Secante_loop f TOL n (i + 1) p1 q1 p (f p)
            (rows ++ [⟨i, p, f p⟩])).iters + 1⟩) := by
  subst hp
  simp only [Secante_loop, if_neg hq]
  refine ⟨?_, ?_, ?_⟩
  · intro h1 h2
    rw [if_pos h1, if_neg h2]
  · intro h1 h2
    rw [if_pos h1, if_pos h2]
  · intro h1
    rw [if_neg h1]

/-- C6, witness for the amended theorem: one concrete converging secant
step (`f x = x - 3`, iterates `4, 2`, accepted `p = 3 ≠ 0`). -/
theorem C6_secant_iteration_witness :
    ((-1 : ℚ) - 1 ≠ 0) ∧
    ((3 : ℚ) = 2 - (-1) * (2 - 4) / (-1 - 1)) ∧
    Secante_loop (fun x : ℚ => x - 3) 2 1 0 4 1 2 (-1) [] =
      ⟨Except.ok (3, [⟨0, 3, 0⟩]), 1, 1⟩ := by
  refine ⟨by norm_num, by norm_num, ?_⟩
  have h := (C6_secant_iteration (fun x : ℚ => x - 3) 2 4 1 2 (-1) 3 0 0 []
    (by norm_num) (by norm_num)).1 (by norm_num) (by norm_num)
  norm_num at h
  exact h

/-- C7, confirmed: `Newton_Raphson` and `Secante` are deterministic
functions of their arguments, and in particular their returned value and
emitted trace do not depend on the state the module-level `resultados`
table was left in by earlier calls, because both clear it on entry
(`fixed_point_iteration` and `steffensen` never touch it and are plain
functions of their arguments). -/
theorem C7_trace_state_independence (f fp : ℚ → ℚ) (p0 p1 TOL : ℚ)
    (N_0 : Nat) (g g1 : List Row) :
    Newton_Raphson f fp p0 TOL N_0 g = Newton_Raphson f fp p0 TOL N_0 g1 ∧
    Secante f p0 p1 TOL N_0 g = Secante f p0 p1 TOL N_0 g1 :=
  ⟨rfl, rfl⟩

/-- C1, counterexample: with `x = [200000]`, `f x = x + 2` and `tol = 1`,
the step difference is `2 > tol`, so under the claim's purely absolute test
the single allowed iteration would not converge; but the source's
`np.allclose(x_new, x, atol=tol)` keeps numpy's default `rtol = 1e-5`, its
bound is `1 + 2 = 3 ≥ 2`, and the call returns `[200002]`. -/
theorem C1_counterexample :
    (fixed_point_iteration (fun v => v.map (fun a => a + 2)) [200000] 1
      1).res = Except.ok [200002] ∧
    ¬ (|(200002 : ℚ) - 200000| ≤ 1) ∧
    fixed_point_iteration_spec (fun v => v.map (fun a => a + 2)) [200000] 1
      1 = Except.error PyErr.valueError := by
  refine ⟨?_, by norm_num, ?_⟩
  · simp only [fixed_point_iteration, fixed_point_loop, allclose,
      rtolDefault]
    norm_num
  · simp only [fixed_point_iteration_spec, fixed_point_loop_spec,
      allclose_abs]
    norm_num

/-- C1, amended: `fixed_point_iteration` returns `x_new = f^[k+1] x0` at
the first step `k` at which `np.allclose(x_new, x, atol=tol)` holds — the
componentwise test `|x_new_i − x_i| ≤ tol + rtol·|x_i|` with numpy's
default `rtol = 1e-5`, which has a relative component — and otherwise
continues with `x := x_new`; exhausting the budget yields `ValueError`. -/
theorem C1_allclose_characterization (f : List ℚ → List ℚ)
    (x0 r : List ℚ) (tol : ℚ) (m : Nat) :
    (fixed_point_iteration f x0 tol m).res = Except.ok r ↔
    ∃ k, k < m ∧ r = f^[k + 1] x0 ∧
      allclose (f^[k + 1] x0) (f^[k] x0) tol = true ∧
      ∀ j, j < k → allclose (f^[j + 1] x0) (f^[j] x0) tol = false :=
  fixed_point_loop_ok_iff f tol m x0 r

/-- C2, counterexample: `steffensen` with the exact fixed point as initial
guess (`f = id`, `x0 = 0 = f 0`, `tol = 1 > 0`) does not return
successfully within one iteration: the Aitken denominator is exactly `0`,
`|0| < tol` fires, and the call returns `None`. -/
theorem C2_counterexample :
    (steffensen (fun x => x) 0 1 1).res = Except.ok none ∧
    ∀ y : ℚ, (steffensen (fun x => x) 0 1 1).res ≠ Except.ok (some y) := by
  have h : (steffensen (fun x => x) 0 1 1).res = Except.ok none := by
    simp only [steffensen, steffensen_loop]
    norm_num
  exact ⟨h, fun y => by rw [h]; simp⟩

/-- C2, amended: given the exact root/fixed point and `tol > 0` (and a
budget of at least one iteration), `fixed_point_iteration` returns it after
one iteration; `Newton_Raphson` does too provided `fprime(r) ≠ 0` and
`r ≠ 0` (at `r = 0` the relative-error diagnostic would divide by zero);
`Secante` with `p_1 = r` does too provided `f(p_0) ≠ 0` and `r ≠ 0`;
`steffensen` instead hits the small-denominator guard (the Aitken
denominator is exactly `0 < tol`) and returns `None` on the first
iteration. -/
theorem C2_exact_guess :
    (∀ (f : List ℚ → List ℚ) (r : List ℚ) (tol : ℚ) (m : Nat),
      f r = r → 0 < tol → 1 ≤ m →
      fixed_point_iteration f r tol m = ⟨Except.ok r, 1, 1⟩) ∧
    (∀ (g gp : ℚ → ℚ) (r TOL : ℚ) (N_0 : Nat) (t : List Row),
      g r = 0 → gp r ≠ 0 → r ≠ 0 → 0 < TOL → 1 ≤ N_0 →
      Newton_Raphson g gp r TOL N_0 t =
        ⟨Except.ok (r, [⟨0, r, 0⟩]), 3, 1⟩) ∧
    (∀ (g : ℚ → ℚ) (p0 r TOL : ℚ) (N_0 : Nat) (t : List Row),
      g r = 0 → g p0 ≠ 0 → r ≠ 0 → 0 < TOL → 1 ≤ N_0 →
      Secante g p0 r TOL N_0 t =
        ⟨Except.ok (r, [⟨0, p0, g p0⟩, ⟨1, r, 0⟩, ⟨0, r, 0⟩]), 3, 1⟩) ∧
    (∀ (f : ℚ → ℚ) (r tol : ℚ) (m : Nat),
      f r = r → 0 < tol → 1 ≤ m →
      steffensen f r tol m = ⟨Except.ok none, 2, 1⟩) := by
  refine ⟨?_, ?_, ?_, ?_⟩
  · intro f r tol m hf ht hm
    obtain ⟨m2, rfl⟩ : ∃ m2, m = m2 + 1 := ⟨m - 1, by omega⟩
    unfold fixed_point_iteration
    simp only [fixed_point_loop, hf]
    rw [if_pos (allclose_self ht.le)]
  · intro g gp r TOL N_0 t hg hgp hr hT hN
    obtain ⟨k, rfl⟩ : ∃ k, N_0 = k + 1 := ⟨N_0 - 1, by omega⟩
    unfold Newton_Raphson clear_rows
    simp only [Newton_loop, List.nil_append]
    rw [if_neg hgp]
    simp only [hg, zero_div, sub_zero, sub_self, abs_zero]
    rw [if_pos hT, if_neg hr]
  · intro g p0 r TOL N_0 t hg hp0 hr hT hN
    obtain ⟨k, rfl⟩ : ∃ k, N_0 = k + 1 := ⟨N_0 - 1, by omega⟩
    unfold Secante clear_rows
    have hq : g r - g p0 ≠ 0 := by
      rw [hg]
      simpa using hp0
    simp only [Secante_loop, List.nil_append]
    rw [if_neg hq]
    simp only [hg, zero_mul, zero_div, sub_zero, sub_self, abs_zero]
    rw [if_pos hT, if_neg hr]
    rfl
  · intro f r tol m hf ht hm
    obtain ⟨m2, rfl⟩ : ∃ m2, m = m2 + 1 := ⟨m - 1, by omega⟩
    unfold steffensen
    simp only [steffensen_loop, hf]
    have hd : r - 2 * r + r = 0 := by ring
    rw [hd, abs_zero, if_pos ht]

/-- C2, witness for the amended theorem at concrete inputs (identity map
with fixed point `5`; `g x = x − 1` with root `1` for Newton and secant;
identity map with fixed point `7` for Steffensen). -/
theorem C2_exact_guess_witness :
    fixed_point_iteration (fun v => v) [5] 1 2 = ⟨Except.ok [5], 1, 1⟩ ∧
    Newton_Raphson (fun x => x - 1) (fun _ => 1) 1 1 3 [] =
      ⟨Except.ok (1, [⟨0, 1, 0⟩]), 3, 1⟩ ∧
    Secante (fun x => x - 1) 2 1 1 3 [] =
      ⟨Except.ok (1, [⟨0, 2, 1⟩, ⟨1, 1, 0⟩, ⟨0, 1, 0⟩]), 3, 1⟩ ∧
    steffensen (fun x => x) 7 2 4 = ⟨Except.ok none, 2, 1⟩ := by
  obtain ⟨h1, h2, h3, h4⟩ := C2_exact_guess
  refine ⟨?_, ?_, ?_, ?_⟩
  · exact h1 (fun v => v) [5] 1 2 rfl (by norm_num) (by norm_num)
  · exact h2 (fun x => x - 1) (fun _ => 1) 1 1 3 [] (by norm_num)
      (by norm_num) (by norm_num) (by norm_num) (by norm_num)
  · have h := h3 (fun x => x - 1) 2 1 1 3 [] (by norm_num) (by norm_num)
      (by norm_num) (by norm_num) (by norm_num)
    norm_num at h
    exact h
  · exact h4 (fun x => x) 7 2 4 rfl (by norm_num) (by norm_num)

/-- C8, confirmed: every method performs at most `max_iterations` loop
iterations, so with terminating caller-supplied functions every call
terminates; `max_iterations` is the only bound the loops depend on. -/
theorem C8_iteration_bound (f : List ℚ → List ℚ) (g gp h : ℚ → ℚ)
    (x0 : List ℚ) (p0 p1 y0 z0 tol : ℚ) (m N_0 : Nat) (t t1 : List Row) :
    (fixed_point_iteration f x0 tol m).iters ≤ m ∧
    (Newton_Raphson g gp y0 tol N_0 t).iters ≤ N_0 ∧
    (Secante g p0 p1 tol N_0 t1).iters ≤ N_0 ∧
    (steffensen h z0 tol m).iters ≤ m := by
  refine ⟨?_, ?_, ?_, ?_⟩
  · exact fixed_point_loop_iters f tol m x0
  · exact Newton_loop_iters g gp tol N_0 0 y0 (clear_rows t)
  · exact Secante_loop_iters g tol N_0 0 p0 (g p0) p1 (g p1) _
  · exact steffensen_loop_iters h tol m z0

/-- C9, confirmed: `fixed_point_iteration` never mutates the caller's
initial-guess array. In the store model, `x = np.array(x0)` allocates a
fresh copy and every subsequent iterate is a fresh allocation, so every
pre-existing array — in particular the one `x0` points to — holds the same
components after the call as before. -/
theorem C9_x0_not_mutated (f : List ℚ → List ℚ) (s : Store) (x0a : Nat)
    (tol : ℚ) (max_iter a : Nat) (ha : a < s.length) :
    readArr (fixed_point_iteration_store f s x0a tol max_iter).1 a =
      readArr s a := by
  unfold fixed_point_iteration_store
  obtain ⟨t, ht⟩ := fixed_point_loop_store_extends f tol max_iter
    (npArrayCopy s (readArr s x0a)).1 (npArrayCopy s (readArr s x0a)).2
  simp only [npArrayCopy] at ht ⊢
  rw [ht, List.append_assoc]
  unfold readArr
  exact List.getD_append s ([readArr s x0a] ++ t) [] a ha

/-- C9, witness at a concrete one-array store. -/
theorem C9_x0_not_mutated_witness :
    0 < ([[(3 : ℚ), 4]] : Store).length ∧
    readArr (fixed_point_iteration_store (fun v => v) [[(3 : ℚ), 4]] 0 1
      1).1 0 = readArr [[(3 : ℚ), 4]] 0 :=
  ⟨by norm_num,
    C9_x0_not_mutated (fun v => v) [[(3 : ℚ), 4]] 0 1 1 0 (by norm_num)⟩

/-- C10, confirmed: a value returned by `fixed_point_iteration` is always
the freshly computed iterate: it is `f x` for some iterate `x` at which the
closeness test between `f x` and `x` passed; in particular it lies in the
image of `f`. -/
theorem C10_returns_image (f : List ℚ → List ℚ) (x0 : List ℚ) (tol : ℚ)
    (m : Nat) (r : List ℚ)
    (h : (fixed_point_iteration f x0 tol m).res = Except.ok r) :
    ∃ x, r = f x ∧ allclose (f x) x tol = true :=
  fixed_point_loop_ok_image f tol m x0 r h

/-- C10, witness: the identity map at `[0]` returns `[0] = f [0]` with the
test passing at `[0]`. -/
theorem C10_returns_image_witness :
    (fixed_point_iteration (fun v : List ℚ => v) [0] 1 1).res =
      Except.ok [0] ∧
    ∃ x, [(0 : ℚ)] = (fun v : List ℚ => v) x ∧
      allclose ((fun v : List ℚ => v) x) x 1 = true := by
  have h : (fixed_point_iteration (fun v : List ℚ => v) [0] 1 1).res =
      Except.ok [0] := by
    simp only [fixed_point_iteration, fixed_point_loop, allclose,
      rtolDefault]
    norm_num
  exact ⟨h, C10_returns_image (fun v : List ℚ => v) [0] 1 1 [0] h⟩

end Rootfinding
